import Mathlib

/-!
Verification of the `salesforce-cli-repl` connector
(`src/SalesforceCliConnector.js`) against its specification.

The development shallowly embeds the connector's logic:

* External collaborators (the spawned `sfdx` subprocess, `JSON.parse` of the
  tool's output, the `jsforce` connection constructor, the filesystem) are
  modelled as explicit inputs: a `SpawnOutcome` value stands for what the
  subprocess did, a parse oracle `String → Except StdError OrgDetail` stands
  for `JSON.parse` applied to the tool response (whose shape the source
  documents with the `OrgDetail` / `OrgDetailResult` jsdoc typedefs), and an
  `FsWorld` association list stands for the filesystem.
* JavaScript promises that may reject are embedded as `Except DeveloperError α`;
  `resolve(null)` is the `none` sentinel of an `Option`.
* `pino` logging is embedded as a returned `List LogEntry`; the trace-level
  gating of `DeveloperError.log` is reproduced branch for branch.
* For the filesystem helpers, `JSON.stringify(v, null, 2)` and `JSON.parse`
  are given concrete executable models (`jsonStringify`, `jsonParse`) over a
  JSON value type, so that the write-then-read round trip is a theorem and
  not an assumption.  JSON numbers are modelled as integers rendered in
  plain decimal (the source never manipulates numeric payloads), and object
  member lists model a JS object's ordered own-properties.
-/

/-! ## Errors, logging, and the DeveloperError class -/

/-- A plain JavaScript `Error` as the source consumes it: the `message` and
`stack` properties read by `DeveloperError.importError`, by the `catch`
blocks of the filesystem helpers, and by the subprocess error handler. -/
structure StdError where
  message : String
  stack : String
deriving DecidableEq, Repr

/-- Model of the `DeveloperError` class (source lines 51–101): a client
readable `message`, a debug-level `detailMessage`, and a `stack`. -/
structure DeveloperError where
  message : String
  detailMessage : String
  stack : String
deriving DecidableEq, Repr

/-- Error level: none (source constant `ERROR_LEVEL_NONE = -1`). -/
def ERROR_LEVEL_NONE : Int := -1

/-- Error level: basic (source constant `ERROR_LEVEL_BASIC = 0`). -/
def ERROR_LEVEL_BASIC : Int := 0

/-- Error level: detail (source constant `ERROR_LEVEL_DETAIL = 1`). -/
def ERROR_LEVEL_DETAIL : Int := 1

/-- One `pino` log line.  `info` models `logger.info`, `error` models a
single-argument `logger.error`, and `errorDetail` models the three-argument
`logger.error('Error occurred:%s \n %s \n %o', ...)` call. -/
inductive LogEntry where
  | info (msg : String)
  | error (msg : String)
  | errorDetail (message : String) (detailMessage : String) (stack : String)
deriving DecidableEq, Repr

/-- `DeveloperError.log(traceLevel)` (source lines 92–100): nothing below or
at `ERROR_LEVEL_NONE`, the message alone at `ERROR_LEVEL_BASIC`, message
plus detail plus stack above it. -/
def DeveloperError.log (e : DeveloperError) (traceLevel : Int) : List LogEntry :=
  if traceLevel > ERROR_LEVEL_NONE then
    if traceLevel = ERROR_LEVEL_BASIC then
      [.error ("Error occurred:" ++ e.message)]
    else if traceLevel > ERROR_LEVEL_BASIC then
      [.errorDetail e.message e.detailMessage e.stack]
    else []
  else []

/-- The argument of `DeveloperError.importError`: in JavaScript the caught
value is either already a `DeveloperError` (the `instanceof` test) or a
standard error. -/
inductive JsErrorValue where
  | dev (e : DeveloperError)
  | std (e : StdError)
deriving DecidableEq, Repr

/-- `DeveloperError.importError` (source lines 81–86): a `DeveloperError`
passes through unchanged, anything else is wrapped with the fixed detail
message `unhandled exception`. -/
def DeveloperError.importError : JsErrorValue → DeveloperError
  | .dev e => e
  | .std e => ⟨e.message, "unhandled exception", e.stack⟩

/-! ## The external tool response shape (jsdoc typedefs, source lines 27–46) -/

/-- The `OrgDetailResult` typedef: the successful payload of the tool
response. -/
structure OrgDetailResult where
  username : String
  id : String
  connectedStatus : String
  accessToken : String
  instanceUrl : String
  clientId : String
  «alias» : String
deriving DecidableEq, Repr

/-- The `OrgDetail` typedef: the raw parsed response of
`sfdx force:org:display --json`. -/
structure OrgDetail where
  status : Int
  message : String
  stack : String
  result : OrgDetailResult
deriving DecidableEq, Repr

/-! ## Subprocess invocation: getOrgDetail -/

/-- What the spawned subprocess did, as observed by `getOrgDetail`'s event
handlers (source lines 237–269): either the `error` event fired (so
`streamError` is set when stdout closes), or the process ran and the
combined stdout/stderr bytes accumulated into `results`.  The close
callback's argument — the only place an exit code could be observed — is
carried as `exitCode` and, like the source, never consulted. -/
inductive SpawnOutcome where
  | launchError (err : StdError)
  | output (results : String) (exitCode : Int)
deriving DecidableEq, Repr

/-- The `alias || 'default'` idiom used in every error template: a blank
alias falls back to the string `default`. -/
def aliasOrDefault («alias» : String) : String :=
  if «alias» = "" then "default" else «alias»

/-- The argument vector built by `getOrgDetail` (source lines 228–232):
`force:org:display --json`, plus `-u <alias>` when an alias is supplied. -/
def orgDisplayArgs («alias» : String) : List String :=
  if «alias» = "" then ["force:org:display", "--json"]
  else ["force:org:display", "--json", "-u", «alias»]

/-- The spec's `ToolUnavailable` classification: the error `getOrgDetail`
rejects with when the subprocess could not be launched (source lines
243–249). -/
def toolUnavailableError («alias» : String) (err : StdError) : DeveloperError :=
  ⟨"Error occurred while asking the salesforce cli for alias:" ++ aliasOrDefault «alias»
      ++ ", is the salesforce cli installed?",
    err.message, err.stack⟩

/-- The spec's `MalformedResponse` classification: the error
`getConnectionDetail` rejects with when `JSON.parse` throws (source lines
196–202). -/
def malformedResponseError («alias» : String) (err : StdError) : DeveloperError :=
  ⟨"Unable to get connection:" ++ aliasOrDefault «alias», err.message, err.stack⟩

/-- The spec's `ResolutionFailed` classification: the error
`getConnectionDetail` rejects with when the parsed response carries a
non-zero status (source lines 210–214). -/
def resolutionFailedError («alias» : String) (detail : OrgDetail) : DeveloperError :=
  ⟨"Unable to find connection:" ++ aliasOrDefault «alias», detail.message, detail.stack⟩

/-- `getOrgDetail` (source lines 224–270): on launch failure reject with the
`ToolUnavailable` error, otherwise resolve with the accumulated output.  The
exit code is ignored. -/
def getOrgDetail («alias» : String) (outcome : SpawnOutcome) : Except DeveloperError String :=
  match outcome with
  | .launchError err => .error (toolUnavailableError «alias» err)
  | .output results _ => .ok results

/-! ## getConnectionDetail and getConnection -/

/-- `getConnectionDetail` (source lines 177–216).  `jsonParseTool` stands for
`JSON.parse` applied to the tool's output, producing the jsdoc-documented
`OrgDetail` shape or throwing a standard error.  Returns the promise outcome
together with the log lines emitted. -/
def getConnectionDetail (traceLevel : Int) («alias» : String)
    (jsonParseTool : String → Except StdError OrgDetail)
    (outcome : SpawnOutcome) :
    Except DeveloperError OrgDetailResult × List LogEntry :=
  match getOrgDetail «alias» outcome with
  | .error err => (.error err, [])
  | .ok conn =>
    let captureLogs :=
      if traceLevel > ERROR_LEVEL_BASIC then [LogEntry.info ("captured result: " ++ conn)]
      else []
    match jsonParseTool conn with
    | .error err => (.error (malformedResponseError «alias» err), captureLogs)
    | .ok connObj =>
      if connObj.status = 0 then (.ok connObj.result, captureLogs)
      else (.error (resolutionFailedError «alias» connObj), captureLogs)

/-- The two fields of the `jsforce` connection constructor call
(source lines 156–159). -/
structure Connection where
  serverUrl : String
  sessionId : String
deriving DecidableEq, Repr

/-- `getConnection` (source lines 149–169): build the connection from the
resolved record's `instanceUrl` and `accessToken`; on any failure, import
the error, log it at the configured trace level, and resolve to the `null`
sentinel (`none`).  The promise never rejects. -/
def getConnection (traceLevel : Int) («alias» : String)
    (jsonParseTool : String → Except StdError OrgDetail)
    (outcome : SpawnOutcome) :
    Option Connection × List LogEntry :=
  match getConnectionDetail traceLevel «alias» jsonParseTool outcome with
  | (.ok connectionInfo, logs) =>
    (some ⟨connectionInfo.instanceUrl, connectionInfo.accessToken⟩, logs)
  | (.error err, logs) =>
    let cleanedErr := DeveloperError.importError (.dev err)
    (none, logs ++ cleanedErr.log traceLevel)

/-! ## A concrete JSON model for the filesystem helpers

`writeFile` serializes with `JSON.stringify(contents, null, 2)` and
`readJSON` parses with `fs.readJsonSync` (a `readFileSync` followed by
`JSON.parse`).  Both are modelled concretely so the write-then-read round
trip is provable.  `JValue` models a JavaScript JSON-representable value:
numbers as integers rendered in plain decimal, object members as the
object's ordered own-properties (which carry pairwise distinct keys in
JavaScript). -/

mutual
inductive JValue where
  | null
  | bool (b : Bool)
  | num (n : Int)
  | str (s : String)
  | arr (items : JArr)
  | obj (members : JObj)
inductive JArr where
  | nil
  | cons (hd : JValue) (tl : JArr)
inductive JObj where
  | nil
  | cons (key : String) (val : JValue) (tl : JObj)
end

/-! ### Decimal digits -/

/-- The character of the decimal digit `k` (for `k < 10`). -/
def digitChar (k : Nat) : Char := Char.ofNat (48 + k)

/-- Decimal digits of `n`, least significant first, with fuel. -/
def digitsRev : Nat → Nat → List Char
  | 0, _ => []
  | f + 1, n =>
    if n < 10 then [digitChar n]
    else digitChar (n % 10) :: digitsRev f (n / 10)

/-- Decimal digits of `n`, most significant first. -/
def natToDigits (n : Nat) : List Char := (digitsRev (n + 1) n).reverse

/-- Decimal rendering of an integer, as `JSON.stringify` renders an
integral number. -/
def intToDigits (n : Int) : List Char :=
  if n < 0 then '-' :: natToDigits n.natAbs else natToDigits n.toNat

/-- Numeric value of a decimal digit character. -/
def digitVal (c : Char) : Nat := c.toNat - 48

/-- Value of a most-significant-first digit list. -/
def digitsToNat (ds : List Char) : Nat :=
  ds.foldl (fun a c => a * 10 + digitVal c) 0

/-- Longest digit prefix of a character list, and the rest. -/
def takeDigits : List Char → List Char × List Char
  | [] => ([], [])
  | c :: cs =>
    if c.isDigit then
      let r := takeDigits cs
      (c :: r.1, r.2)
    else ([], c :: cs)

/-- Parse a nonempty run of decimal digits into a natural number. -/
def parseNatTok (cs : List Char) : Option (Nat × List Char) :=
  match takeDigits cs with
  | ([], _) => none
  | (ds, rest) => some (digitsToNat ds, rest)

/-- Does the list start with a decimal digit?  (A number token must not be
followed by one, or the parser would consume it.) -/
def startsDigit : List Char → Bool
  | [] => false
  | c :: _ => c.isDigit

/-! ### Whitespace -/

/-- The four JSON whitespace characters. -/
def isWsChar (c : Char) : Bool :=
  c = ' ' || c = '\t' || c = '\n' || c = '\r'

/-- Drop leading JSON whitespace. -/
def skipWs : List Char → List Char
  | [] => []
  | c :: cs => if isWsChar c then skipWs cs else c :: cs

/-- An indentation run of `n` spaces. -/
def pad (n : Nat) : List Char := List.replicate n ' '

/-! ### String escaping, as `JSON.stringify` performs it -/

/-- Lower-case hexadecimal digit character of `k` (for `k < 16`). -/
def hexDigitChar (k : Nat) : Char :=
  if k < 10 then Char.ofNat (48 + k) else Char.ofNat (87 + k)

/-- Numeric value of a hexadecimal digit character, upper or lower case. -/
def hexVal (c : Char) : Option Nat :=
  if 48 ≤ c.toNat ∧ c.toNat ≤ 57 then some (c.toNat - 48)
  else if 97 ≤ c.toNat ∧ c.toNat ≤ 102 then some (c.toNat - 87)
  else if 65 ≤ c.toNat ∧ c.toNat ≤ 70 then some (c.toNat - 55)
  else none

/-- How `JSON.stringify` writes one character inside a string literal: the
two-character short escapes, `\u00xx` for the remaining control characters,
and everything else verbatim. -/
def escapeChar (c : Char) : List Char :=
  if c = '"' then ['\\', '"']
  else if c = '\\' then ['\\', '\\']
  else if c = '\x08' then ['\\', 'b']
  else if c = '\x0c' then ['\\', 'f']
  else if c = '\n' then ['\\', 'n']
  else if c = '\r' then ['\\', 'r']
  else if c = '\t' then ['\\', 't']
  else if c.toNat < 32 then
    ['\\', 'u', '0', '0', hexDigitChar (c.toNat / 16), hexDigitChar (c.toNat % 16)]
  else [c]

/-- Escape every character of a string body. -/
def escapeStr : List Char → List Char
  | [] => []
  | c :: cs => escapeChar c ++ escapeStr cs

/-- The value of a two-character JSON escape (`\"`, `\\`, `\/`, `\b`, `\f`,
`\n`, `\r`, `\t`). -/
def unescapeChar (e : Char) : Option Char :=
  if e = '"' then some '"'
  else if e = '\\' then some '\\'
  else if e = '/' then some '/'
  else if e = 'b' then some '\x08'
  else if e = 'f' then some '\x0c'
  else if e = 'n' then some '\n'
  else if e = 'r' then some '\r'
  else if e = 't' then some '\t'
  else none

/-- Scan a JSON string body up to its closing quote, resolving escapes. -/
def parseStringChars : List Char → Option (List Char × List Char)
  | [] => none
  | c :: cs =>
    if c = '"' then some ([], cs)
    else if c = '\\' then
      match cs with
      | [] => none
      | e :: cs2 =>
        if e = 'u' then
          match cs2 with
          | h1 :: h2 :: h3 :: h4 :: cs3 =>
            match hexVal h1, hexVal h2, hexVal h3, hexVal h4 with
            | some d1, some d2, some d3, some d4 =>
              match parseStringChars cs3 with
              | some (l, r) =>
                some (Char.ofNat (d1 * 4096 + d2 * 256 + d3 * 16 + d4) :: l, r)
              | none => none
            | _, _, _, _ => none
          | _ => none
        else
          match unescapeChar e with
          | some c2 =>
            match parseStringChars cs2 with
            | some (l, r) => some (c2 :: l, r)
            | none => none
          | none => none
    else
      match parseStringChars cs with
      | some (l, r) => some (c :: l, r)
      | none => none

/-! ### The printer: `JSON.stringify(v, null, 2)` -/

mutual
def stringifyV : JValue → Nat → List Char
  | .null, _ => ['n', 'u', 'l', 'l']
  | .bool true, _ => ['t', 'r', 'u', 'e']
  | .bool false, _ => ['f', 'a', 'l', 's', 'e']
  | .num n, _ => intToDigits n
  | .str s, _ => '"' :: (escapeStr s.data ++ ['"'])
  | .arr .nil, _ => ['[', ']']
  | .arr (.cons x xs), ind =>
    '[' :: '\n' :: (stringifyItems (.cons x xs) (ind + 2) ++ '\n' :: (pad ind ++ [']']))
  | .obj .nil, _ => ['\x7b', '\x7d']
  | .obj (.cons k v ms), ind =>
    '\x7b' :: '\n' :: (stringifyMembers (.cons k v ms) (ind + 2) ++ '\n' :: (pad ind ++ ['\x7d']))

def stringifyItems : JArr → Nat → List Char
  | .nil, _ => []
  | .cons x .nil, ind => pad ind ++ stringifyV x ind
  | .cons x (.cons y ys), ind =>
    pad ind ++ (stringifyV x ind ++ ',' :: '\n' :: stringifyItems (.cons y ys) ind)

def stringifyMembers : JObj → Nat → List Char
  | .nil, _ => []
  | .cons k v .nil, ind =>
    pad ind ++ ('"' :: (escapeStr k.data ++ '"' :: ':' :: ' ' :: stringifyV v ind))
  | .cons k v (.cons k2 v2 ms), ind =>
    pad ind ++ ('"' :: (escapeStr k.data ++ '"' :: ':' :: ' ' :: stringifyV v ind))
      ++ ',' :: '\n' :: stringifyMembers (.cons k2 v2 ms) ind
end

/-- `JSON.stringify(v, null, 2)`: indented serialization at top level. -/
def jsonStringify (v : JValue) : String := ⟨stringifyV v 0⟩

/-! ### The parser: `JSON.parse`

Fuel-indexed recursive descent.  The fuel only needs to dominate the node
count of the parsed value; `jsonParse` passes the input length. -/

/-- Consume an exact expected run of characters. -/
def expectChars : List Char → List Char → Option (List Char)
  | [], cs => some cs
  | _ :: _, [] => none
  | e :: es, c :: cs => if c = e then expectChars es cs else none

/-- After optional whitespace, consume the given closing bracket. -/
def tryClose (close : Char) (cs : List Char) : Option (List Char) :=
  match skipWs cs with
  | [] => none
  | c :: r => if c = close then some r else none

mutual
def parseValue : Nat → List Char → Option (JValue × List Char)
  | 0, _ => none
  | f + 1, cs => parseValueCore f (skipWs cs)

def parseValueCore : Nat → List Char → Option (JValue × List Char)
  | _, [] => none
  | f, c :: rest =>
    if c.isDigit then
      match parseNatTok (c :: rest) with
      | some (m, r) => some (.num (m : Int), r)
      | none => none
    else if c = '-' then
      match parseNatTok rest with
      | some (m, r) => some (.num (-(m : Int)), r)
      | none => none
    else if c = '"' then
      match parseStringChars rest with
      | some (l, r) => some (.str ⟨l⟩, r)
      | none => none
    else if c = 'n' then
      match expectChars ['u', 'l', 'l'] rest with
      | some r => some (.null, r)
      | none => none
    else if c = 't' then
      match expectChars ['r', 'u', 'e'] rest with
      | some r => some (.bool true, r)
      | none => none
    else if c = 'f' then
      match expectChars ['a', 'l', 's', 'e'] rest with
      | some r => some (.bool false, r)
      | none => none
    else if c = '[' then
      match tryClose ']' rest with
      | some r => some (.arr .nil, r)
      | none =>
        match f with
        | 0 => none
        | g + 1 =>
          match parseItems g rest with
          | some (l, r) => some (.arr l, r)
          | none => none
    else if c = '\x7b' then
      match tryClose '\x7d' rest with
      | some r => some (.obj .nil, r)
      | none =>
        match f with
        | 0 => none
        | g + 1 =>
          match parseMembers g rest with
          | some (ms, r) => some (.obj ms, r)
          | none => none
    else none

def parseItems : Nat → List Char → Option (JArr × List Char)
  | 0, _ => none
  | f + 1, cs =>
    match parseValue f cs with
    | none => none
    | some (v, r1) =>
      match skipWs r1 with
      | [] => none
      | c :: r2 =>
        if c = ',' then
          match parseItems f r2 with
          | some (l, r) => some (.cons v l, r)
          | none => none
        else if c = ']' then some (.cons v .nil, r2)
        else none

def parseMembers : Nat → List Char → Option (JObj × List Char)
  | 0, _ => none
  | f + 1, cs =>
    match skipWs cs with
    | [] => none
    | c0 :: r1 =>
      if c0 = '"' then
        match parseStringChars r1 with
        | some (k, r2) =>
          (match skipWs r2 with
          | [] => none
          | c1 :: r3 =>
            if c1 = ':' then
              match parseValue f r3 with
              | some (v, r4) =>
                (match skipWs r4 with
                | [] => none
                | c2 :: r5 =>
                  if c2 = ',' then
                    match parseMembers f r5 with
                    | some (ms, r) => some (.cons ⟨k⟩ v ms, r)
                    | none => none
                  else if c2 = '\x7d' then some (.cons ⟨k⟩ v .nil, r5)
                  else none)
              | none => none
            else none)
        | none => none
      else none
end

/-- `JSON.parse`: parse a whole document, requiring only trailing
whitespace after the value.  A failure models the thrown `SyntaxError`. -/
def jsonParse (s : String) : Except StdError JValue :=
  match parseValue (s.data.length + 1) s.data with
  | some (v, rest) =>
    if skipWs rest = [] then .ok v
    else .error ⟨"Unexpected token in JSON", "SyntaxError"⟩
  | none => .error ⟨"Unexpected token in JSON", "SyntaxError"⟩

/-! ### Fuel measure for parser sufficiency -/

mutual
def jSizeV : JValue → Nat
  | .null => 1
  | .bool _ => 1
  | .num _ => 1
  | .str _ => 1
  | .arr .nil => 1
  | .arr (.cons x xs) => 2 + jSizeA (.cons x xs)
  | .obj .nil => 1
  | .obj (.cons k v ms) => 2 + jSizeO (.cons k v ms)

def jSizeA : JArr → Nat
  | .nil => 0
  | .cons x xs => 1 + jSizeV x + jSizeA xs

def jSizeO : JObj → Nat
  | .nil => 0
  | .cons _ v ms => 1 + jSizeV v + jSizeO ms
end

/-! ## Filesystem model

The filesystem is an association list from resolved paths to nodes.  A file
node carries what `readFileSync` does there: its text, or the error it
throws (modelling I/O failures such as permission errors); a directory node
likewise carries what `readdirSync` does.  `resolve : String → String`
stands for resolution against the current working directory (`path.resolve`
for the helpers that call it; Node's own cwd resolution for the bare
`fs.writeFileSync` call, which is the same function).  Intermediate
directory structure is not modelled: a write succeeds unless the target is
an existing directory. -/

/-- A filesystem node: what reading it does. -/
inductive FsNode where
  | file (content : Except StdError String)
  | dir (entries : Except StdError (List String))

/-- The filesystem: resolved path to node, newest binding first. -/
abbrev FsWorld : Type := List (String × FsNode)

/-- Look up the node at a resolved path. -/
def FsWorld.find : FsWorld → String → Option FsNode
  | [], _ => none
  | (p, n) :: rest, q => if p = q then some n else FsWorld.find rest q

/-- `fs.existsSync`. -/
def existsSync (w : FsWorld) (p : String) : Bool := (w.find p).isSome

/-- `fs.readFileSync`: the file's content, or a thrown error. -/
def readFileSync (w : FsWorld) (p : String) : Except StdError String :=
  match w.find p with
  | some (.file c) => c
  | some (.dir _) => .error ⟨"EISDIR: illegal operation on a directory, read", "Error: EISDIR"⟩
  | none => .error ⟨"ENOENT: no such file or directory", "Error: ENOENT"⟩

/-- `fs.readJsonSync` (fs-extra): read the file, then `JSON.parse` it;
either step may throw. -/
def readJsonSync (w : FsWorld) (p : String) : Except StdError JValue :=
  match readFileSync w p with
  | .error e => .error e
  | .ok s => jsonParse s

/-- `fs.writeFileSync`: replace or create the file, unless the target is an
existing directory, in which case it throws. -/
def writeFileSync (w : FsWorld) (p : String) (contents : String) :
    Except StdError FsWorld :=
  match w.find p with
  | some (.dir _) => .error ⟨"EISDIR: illegal operation on a directory, open", "Error: EISDIR"⟩
  | _ => .ok ((p, .file (.ok contents)) :: w)

/-- `fs.readdirSync`: the directory's entry names, or a thrown error. -/
def readdirSync (w : FsWorld) (p : String) : Except StdError (List String) :=
  match w.find p with
  | some (.dir entries) => entries
  | some (.file _) => .error ⟨"ENOTDIR: not a directory, scandir", "Error: ENOTDIR"⟩
  | none => .error ⟨"ENOENT: no such file or directory, scandir", "Error: ENOENT"⟩

/-- `fs.ensureDirSync` (fs-extra): an existing directory yields `undefined`
(nothing created); an existing file makes the underlying `mkdir` throw
`EEXIST`; a missing path is created and its path returned (a truthy
value). -/
def ensureDirSync (w : FsWorld) (p : String) :
    Except StdError (Option String × FsWorld) :=
  match w.find p with
  | some (.dir _) => .ok (none, w)
  | some (.file _) => .error ⟨"EEXIST: file already exists, mkdir", "Error: EEXIST"⟩
  | none => .ok (some p, (p, .dir (.ok [])) :: w)

/-! ## The public filesystem helpers (source lines 278–366) -/

/-- `readJSON` (source lines 278–295): resolve, check existence (logging and
returning `undefined` when absent), then `readJsonSync` with any thrown
error caught, classified and logged at the configured trace level. -/
def readJSON (resolve : String → String) (w : FsWorld) (traceLevel : Int)
    (filePath : String) : Option JValue × List LogEntry :=
  let resolvedPath := resolve filePath
  if existsSync w resolvedPath then
    match readJsonSync w resolvedPath with
    | .ok result => (some result, [])
    | .error err =>
      (none,
        DeveloperError.log
          ⟨"unable to read file: " ++ resolvedPath, err.message, err.stack⟩ traceLevel)
  else (none, [.error ("File does not exist: " ++ resolvedPath)])

/-- `readFile` (source lines 302–319): as `readJSON`, but returning the raw
text. -/
def readFile (resolve : String → String) (w : FsWorld) (traceLevel : Int)
    (filePath : String) : Option String × List LogEntry :=
  let resolvedPath := resolve filePath
  if existsSync w resolvedPath then
    match readFileSync w resolvedPath with
    | .ok result => (some result, [])
    | .error err =>
      (none,
        DeveloperError.log
          ⟨"unable to read file: " ++ resolvedPath, err.message, err.stack⟩ traceLevel)
  else (none, [.error ("File does not exist: " ++ resolvedPath)])

/-- `writeFile` (source lines 326–340): serialize the value with
`JSON.stringify(contents, null, 2)` and write it.  There is no existence
check (the `path.resolve` call is commented out in the source; the write
itself still resolves the path against the cwd).  A thrown write error is
caught, classified and logged; note the log message carries the unresolved
`filePath`, as the source does. -/
def writeFile (resolve : String → String) (w : FsWorld) (traceLevel : Int)
    (filePath : String) (contents : JValue) : FsWorld × List LogEntry :=
  let jsonContents := jsonStringify contents
  match writeFileSync w (resolve filePath) jsonContents with
  | .ok w2 => (w2, [])
  | .error err =>
    (w,
      DeveloperError.log
        ⟨"unable to write to file: " ++ filePath, err.message, err.stack⟩ traceLevel)

/-- `listFiles` (source lines 346–366): resolve, check existence, then call
`fs.ensureDirSync` as a directory test — a call that throws (uncaught, hence
the `Except` in the result) when the path is an existing file — and finally
`readdirSync` with any thrown error caught, classified and logged. -/
def listFiles (resolve : String → String) (w : FsWorld) (traceLevel : Int)
    (directoryPath : String) :
    Except StdError (Option (List String)) × List LogEntry :=
  let resolvedPath := resolve directoryPath
  if existsSync w resolvedPath then
    match ensureDirSync w resolvedPath with
    | .error e => (.error e, [])
    | .ok (created, _) =>
      if created.isSome then
        (.ok none, [.error ("Path is not a directory:" ++ resolvedPath)])
      else
        match readdirSync w resolvedPath with
        | .ok results => (.ok (some results), [])
        | .error err =>
          (.ok none,
            DeveloperError.log
              ⟨"unable to read directory: " ++ resolvedPath, err.message, err.stack⟩ traceLevel)
  else (.ok none, [.error ("Path does not exist: " ++ resolvedPath)])

/-- Is the node at `p` an existing directory?  (The one condition under
which a write fails in this model.) -/
def isDirAt (w : FsWorld) (p : String) : Bool :=
  match w.find p with
  | some (.dir _) => true
  | _ => false

/-! ## Theorems -/

/-! ### Digit lemmas -/

theorem digitVal_digitChar : ∀ k : Nat, k < 10 → digitVal (digitChar k) = k := by decide

theorem digitChar_isDigit : ∀ k : Nat, k < 10 → (digitChar k).isDigit = true := by decide

theorem digitsRev_all_digit :
    ∀ (f n : Nat), ∀ c ∈ digitsRev f n, c.isDigit = true := by
  intro f
  induction f with
  | zero => intro n c hc; simp [digitsRev] at hc
  | succ f ih =>
    intro n c hc
    by_cases h : n < 10
    · simp [digitsRev, h] at hc
      subst hc
      exact digitChar_isDigit n h
    · simp [digitsRev, h] at hc
      rcases hc with hc | hc
      · subst hc; exact digitChar_isDigit (n % 10) (Nat.mod_lt n (by omega))
      · exact ih (n / 10) c hc

theorem digitsRev_ne_nil (f n : Nat) (h : 0 < f) : digitsRev f n ≠ [] := by
  cases f with
  | zero => omega
  | succ f =>
    by_cases hn : n < 10 <;> simp [digitsRev, hn]

theorem digitsRev_foldr (f : Nat) :
    ∀ n, n < f → (digitsRev f n).foldr (fun c a => a * 10 + digitVal c) 0 = n := by
  induction f with
  | zero => omega
  | succ f ih =>
    intro n hn
    by_cases h : n < 10
    · simp [digitsRev, h, digitVal_digitChar n h]
    · have hdiv : n / 10 < f := by
        have h1 : n / 10 < n := Nat.div_lt_self (by omega) (by omega)
        omega
      simp [digitsRev, h, ih (n / 10) hdiv,
        digitVal_digitChar (n % 10) (Nat.mod_lt n (by omega))]
      omega

theorem digitsToNat_natToDigits (n : Nat) : digitsToNat (natToDigits n) = n := by
  unfold digitsToNat natToDigits
  rw [List.foldl_reverse]
  exact digitsRev_foldr (n + 1) n (by omega)

theorem natToDigits_all_digit : ∀ c ∈ natToDigits n, c.isDigit = true := by
  intro c hc
  rw [natToDigits, List.mem_reverse] at hc
  exact digitsRev_all_digit _ _ c hc

theorem natToDigits_ne_nil (n : Nat) : natToDigits n ≠ [] := by
  unfold natToDigits
  simp [digitsRev_ne_nil (n + 1) n (by omega)]

theorem takeDigits_append (ds : List Char) :
    ∀ rest, (∀ c ∈ ds, c.isDigit = true) → startsDigit rest = false →
      takeDigits (ds ++ rest) = (ds, rest) := by
  induction ds with
  | nil =>
    intro rest _ hr
    cases rest with
    | nil => rfl
    | cons c cs =>
      simp [startsDigit] at hr
      simp [takeDigits, hr]
  | cons d ds ih =>
    intro rest hd hr
    have hdig : d.isDigit = true := hd d (by simp)
    simp [takeDigits, hdig, ih rest (fun c hc => hd c (by simp [hc])) hr]

theorem parseNatTok_natToDigits (n : Nat) (rest : List Char)
    (hr : startsDigit rest = false) :
    parseNatTok (natToDigits n ++ rest) = some (n, rest) := by
  unfold parseNatTok
  rw [takeDigits_append (natToDigits n) rest (fun c hc => natToDigits_all_digit c hc) hr]
  rcases hne : natToDigits n with _ | ⟨c, cs⟩
  · exact absurd hne (natToDigits_ne_nil n)
  · show some (digitsToNat (c :: cs), rest) = some (n, rest)
    rw [← hne, digitsToNat_natToDigits]

/-! ### Whitespace lemmas -/

theorem skipWs_ws_lead :
    ∀ (l cs : List Char), (∀ c ∈ l, isWsChar c = true) → skipWs (l ++ cs) = skipWs cs := by
  intro l
  induction l with
  | nil => intro cs _; rfl
  | cons c l ih =>
    intro cs h
    have hc : isWsChar c = true := h c (by simp)
    simp [skipWs, hc, ih cs (fun d hd => h d (by simp [hd]))]

theorem skipWs_not_ws (c : Char) (cs : List Char) (h : isWsChar c = false) :
    skipWs (c :: cs) = c :: cs := by
  simp [skipWs, h]

theorem skipWs_cons_ws (c : Char) (cs : List Char) (h : isWsChar c = true) :
    skipWs (c :: cs) = skipWs cs := by
  simp [skipWs, h]

theorem pad_all_ws (n : Nat) : ∀ c ∈ pad n, isWsChar c = true := by
  intro c hc
  rw [pad, List.mem_replicate] at hc
  rw [hc.2]
  rfl

theorem append_all_ws {l1 l2 : List Char} (h1 : ∀ c ∈ l1, isWsChar c = true)
    (h2 : ∀ c ∈ l2, isWsChar c = true) : ∀ c ∈ l1 ++ l2, isWsChar c = true := by
  intro c hc
  rcases List.mem_append.mp hc with h | h
  · exact h1 c h
  · exact h2 c h

/-! ### Escape round-trip lemmas -/

theorem hexVal_hexDigitChar : ∀ k : Nat, k < 16 → hexVal (hexDigitChar k) = some k := by
  decide

theorem parseStringChars_escapeChar (c : Char) (tail : List Char) :
    parseStringChars (escapeChar c ++ tail) =
      match parseStringChars tail with
      | some (l, r) => some (c :: l, r)
      | none => none := by
  by_cases h1 : c = '"'
  · subst h1
    rw [show escapeChar '"' ++ tail = '\\' :: '"' :: tail from rfl, parseStringChars.eq_def]
    simp [unescapeChar]
  · by_cases h2 : c = '\\'
    · subst h2
      rw [show escapeChar '\\' ++ tail = '\\' :: '\\' :: tail from rfl,
        parseStringChars.eq_def]
      simp [unescapeChar]
    · by_cases h3 : c = '\x08'
      · subst h3
        rw [show escapeChar '\x08' ++ tail = '\\' :: 'b' :: tail from rfl,
          parseStringChars.eq_def]
        simp [unescapeChar]
      · by_cases h4 : c = '\x0c'
        · subst h4
          rw [show escapeChar '\x0c' ++ tail = '\\' :: 'f' :: tail from rfl,
            parseStringChars.eq_def]
          simp [unescapeChar]
        · by_cases h5 : c = '\n'
          · subst h5
            rw [show escapeChar '\n' ++ tail = '\\' :: 'n' :: tail from rfl,
              parseStringChars.eq_def]
            simp [unescapeChar]
          · by_cases h6 : c = '\r'
            · subst h6
              rw [show escapeChar '\r' ++ tail = '\\' :: 'r' :: tail from rfl,
                parseStringChars.eq_def]
              simp [unescapeChar]
            · by_cases h7 : c = '\t'
              · subst h7
                rw [show escapeChar '\t' ++ tail = '\\' :: 't' :: tail from rfl,
                  parseStringChars.eq_def]
                simp [unescapeChar]
              · by_cases h8 : c.toNat < 32
                · have hhi : c.toNat / 16 < 16 := by omega
                  have hlo : c.toNat % 16 < 16 := Nat.mod_lt _ (by omega)
                  have h0 : hexVal '0' = some 0 := by decide
                  simp only [escapeChar, h1, h2, h3, h4, h5, h6, h7, h8, if_false,
                    if_true, if_pos, ite_true, ite_false, if_neg, not_false_iff]
                  rw [show ('\\' :: 'u' :: '0' :: '0' :: hexDigitChar (c.toNat / 16)
                        :: hexDigitChar (c.toNat % 16) :: []) ++ tail
                      = '\\' :: 'u' :: '0' :: '0' :: hexDigitChar (c.toNat / 16)
                        :: hexDigitChar (c.toNat % 16) :: tail from rfl,
                    parseStringChars.eq_def]
                  simp [h0, hexVal_hexDigitChar _ hhi, hexVal_hexDigitChar _ hlo]
                  have hn : c.toNat / 16 * 16 + c.toNat % 16 = c.toNat := by omega
                  rw [hn, Char.ofNat_toNat]
                · have he : escapeChar c = [c] := by
                    simp [escapeChar, h1, h2, h3, h4, h5, h6, h7, h8]
                  rw [he, List.singleton_append, parseStringChars.eq_def]
                  simp [h1, h2]

theorem parseStringChars_escapeStr (l : List Char) :
    ∀ rest, parseStringChars (escapeStr l ++ '"' :: rest) = some (l, rest) := by
  induction l with
  | nil =>
    intro rest
    rw [show escapeStr [] ++ '"' :: rest = '"' :: rest from rfl, parseStringChars.eq_def]
    simp
  | cons c l ih =>
    intro rest
    rw [show escapeStr (c :: l) ++ '"' :: rest
        = escapeChar c ++ (escapeStr l ++ '"' :: rest) by simp [escapeStr],
      parseStringChars_escapeChar, ih rest]

/-! ### Heads of printed values -/

theorem digit_head_props (c : Char) (h : c.isDigit = true) :
    isWsChar c = false ∧ c ≠ ']' ∧ c ≠ '\x7d' := by
  have hsp : c ≠ ' ' := by rintro rfl; exact absurd h (by decide)
  have hta : c ≠ '\t' := by rintro rfl; exact absurd h (by decide)
  have hnl : c ≠ '\n' := by rintro rfl; exact absurd h (by decide)
  have hcr : c ≠ '\r' := by rintro rfl; exact absurd h (by decide)
  have hrb : c ≠ ']' := by rintro rfl; exact absurd h (by decide)
  have hbr : c ≠ '\x7d' := by rintro rfl; exact absurd h (by decide)
  exact ⟨by simp [isWsChar, hsp, hta, hnl, hcr], hrb, hbr⟩

theorem stringify_head_ok (c : Char)
    (h : c = 'n' ∨ c = 't' ∨ c = 'f' ∨ c = '"' ∨ c = '[' ∨ c = '\x7b' ∨ c = '-') :
    isWsChar c = false ∧ c ≠ ']' ∧ c ≠ '\x7d' := by
  rcases h with rfl | rfl | rfl | rfl | rfl | rfl | rfl <;> exact (by decide)

theorem stringifyV_head (v : JValue) (ind : Nat) :
    ∃ c t, stringifyV v ind = c :: t ∧ isWsChar c = false ∧ c ≠ ']' ∧ c ≠ '\x7d' := by
  cases v with
  | null => exact ⟨'n', _, rfl, stringify_head_ok 'n' (by simp)⟩
  | bool b =>
    cases b with
    | true => exact ⟨'t', _, rfl, stringify_head_ok 't' (by simp)⟩
    | false => exact ⟨'f', _, rfl, stringify_head_ok 'f' (by simp)⟩
  | num n =>
    by_cases hn : n < 0
    · exact ⟨'-', natToDigits n.natAbs, by simp [stringifyV, intToDigits, hn],
        stringify_head_ok '-' (by simp)⟩
    · rcases hne : natToDigits n.toNat with _ | ⟨c, cs⟩
      · exact absurd hne (natToDigits_ne_nil _)
      · have hd : c.isDigit = true := natToDigits_all_digit c (by rw [hne]; simp)
        exact ⟨c, cs, by simp [stringifyV, intToDigits, hn, hne], digit_head_props c hd⟩
  | str s => exact ⟨'"', _, rfl, stringify_head_ok '"' (by simp)⟩
  | arr items =>
    cases items with
    | nil => exact ⟨'[', _, rfl, stringify_head_ok '[' (by simp)⟩
    | cons x xs => exact ⟨'[', _, rfl, stringify_head_ok '[' (by simp)⟩
  | obj members =>
    cases members with
    | nil => exact ⟨'\x7b', _, rfl, stringify_head_ok '\x7b' (by simp)⟩
    | cons k v2 ms => exact ⟨'\x7b', _, rfl, stringify_head_ok '\x7b' (by simp)⟩

/-! ### Parser stepping lemmas -/

theorem parseValue_succ (f : Nat) (cs : List Char) :
    parseValue (f + 1) cs = parseValueCore f (skipWs cs) := rfl

theorem parseValueCore_quote (f : Nat) (rest : List Char) :
    parseValueCore f ('"' :: rest) =
      (match parseStringChars rest with
      | some (l, r) => some (.str ⟨l⟩, r)
      | none => none) := by
  cases f <;> rfl

theorem parseValueCore_minus (f : Nat) (rest : List Char) :
    parseValueCore f ('-' :: rest) =
      (match parseNatTok rest with
      | some (m, r) => some (.num (-(m : Int)), r)
      | none => none) := by
  cases f <;> rfl

theorem parseValueCore_cons (f : Nat) (c : Char) (rest : List Char) :
    parseValueCore f (c :: rest) =
      (if c.isDigit then
        match parseNatTok (c :: rest) with
        | some (m, r) => some (.num (m : Int), r)
        | none => none
      else if c = '-' then
        match parseNatTok rest with
        | some (m, r) => some (.num (-(m : Int)), r)
        | none => none
      else if c = '"' then
        match parseStringChars rest with
        | some (l, r) => some (.str ⟨l⟩, r)
        | none => none
      else if c = 'n' then
        match expectChars ['u', 'l', 'l'] rest with
        | some r => some (.null, r)
        | none => none
      else if c = 't' then
        match expectChars ['r', 'u', 'e'] rest with
        | some r => some (.bool true, r)
        | none => none
      else if c = 'f' then
        match expectChars ['a', 'l', 's', 'e'] rest with
        | some r => some (.bool false, r)
        | none => none
      else if c = '[' then
        match tryClose ']' rest with
        | some r => some (.arr .nil, r)
        | none =>
          match f with
          | 0 => none
          | g + 1 =>
            match parseItems g rest with
            | some (l, r) => some (.arr l, r)
            | none => none
      else if c = '\x7b' then
        match tryClose '\x7d' rest with
        | some r => some (.obj .nil, r)
        | none =>
          match f with
          | 0 => none
          | g + 1 =>
            match parseMembers g rest with
            | some (ms, r) => some (.obj ms, r)
            | none => none
      else none) := by
  cases f <;> rfl

theorem parseValueCore_digit (f : Nat) (c : Char) (rest : List Char)
    (h : c.isDigit = true) :
    parseValueCore f (c :: rest) =
      (match parseNatTok (c :: rest) with
      | some (m, r) => some (.num (m : Int), r)
      | none => none) := by
  rw [parseValueCore_cons]
  simp [h]

theorem parseValueCore_lbracket_succ (g : Nat) (rest : List Char) :
    parseValueCore (g + 1) ('[' :: rest) =
      (match tryClose ']' rest with
      | some r => some (.arr .nil, r)
      | none =>
        match parseItems g rest with
        | some (l, r) => some (.arr l, r)
        | none => none) := rfl

theorem parseValueCore_lbrace_succ (g : Nat) (rest : List Char) :
    parseValueCore (g + 1) ('\x7b' :: rest) =
      (match tryClose '\x7d' rest with
      | some r => some (.obj .nil, r)
      | none =>
        match parseMembers g rest with
        | some (ms, r) => some (.obj ms, r)
        | none => none) := rfl

theorem parseItems_succ (f : Nat) (cs : List Char) :
    parseItems (f + 1) cs =
      (match parseValue f cs with
      | none => none
      | some (v, r1) =>
        match skipWs r1 with
        | [] => none
        | c :: r2 =>
          if c = ',' then
            match parseItems f r2 with
            | some (l, r) => some (.cons v l, r)
            | none => none
          else if c = ']' then some (.cons v .nil, r2)
          else none) := rfl

theorem parseMembers_succ (f : Nat) (cs : List Char) :
    parseMembers (f + 1) cs =
      (match skipWs cs with
      | [] => none
      | c0 :: r1 =>
        if c0 = '"' then
          match parseStringChars r1 with
          | some (k, r2) =>
            (match skipWs r2 with
            | [] => none
            | c1 :: r3 =>
              if c1 = ':' then
                match parseValue f r3 with
                | some (v, r4) =>
                  (match skipWs r4 with
                  | [] => none
                  | c2 :: r5 =>
                    if c2 = ',' then
                      match parseMembers f r5 with
                      | some (ms, r) => some (.cons ⟨k⟩ v ms, r)
                      | none => none
                    else if c2 = '\x7d' then some (.cons ⟨k⟩ v .nil, r5)
                    else none)
                | none => none
              else none)
          | none => none
        else none) := rfl

theorem parseValue_ws_lead (f : Nat) (c : Char) (cs : List Char)
    (h : isWsChar c = true) : parseValue f (c :: cs) = parseValue f cs := by
  cases f with
  | zero => rfl
  | succ f => rw [parseValue_succ, parseValue_succ, skipWs_cons_ws c cs h]

theorem parseValue_ws_leads (f : Nat) (l cs : List Char)
    (h : ∀ c ∈ l, isWsChar c = true) : parseValue f (l ++ cs) = parseValue f cs := by
  induction l with
  | nil => rfl
  | cons c l ih =>
    rw [List.cons_append,
      parseValue_ws_lead f c (l ++ cs) (h c (by simp)),
      ih (fun d hd => h d (by simp [hd]))]

theorem stringifyItems_shape (x : JValue) (xs : JArr) (ind : Nat) :
    ∃ t, stringifyItems (.cons x xs) ind = pad ind ++ (stringifyV x ind ++ t) := by
  cases xs with
  | nil => exact ⟨[], by simp [stringifyItems]⟩
  | cons y ys =>
    exact ⟨',' :: '\n' :: stringifyItems (.cons y ys) ind, by simp [stringifyItems]⟩

theorem skipWs_items_head (x : JValue) (xs : JArr) (ind : Nat) (r2 : List Char) :
    ∃ c0 t0, skipWs (stringifyItems (.cons x xs) ind ++ r2) = c0 :: t0 ∧
      isWsChar c0 = false ∧ c0 ≠ ']' ∧ c0 ≠ '\x7d' := by
  obtain ⟨t, ht⟩ := stringifyItems_shape x xs ind
  obtain ⟨c0, t0, hv, hw, h1, h2⟩ := stringifyV_head x ind
  refine ⟨c0, t0 ++ (t ++ r2), ?_, hw, h1, h2⟩
  rw [ht, show (pad ind ++ (stringifyV x ind ++ t)) ++ r2
      = pad ind ++ (stringifyV x ind ++ (t ++ r2)) by simp,
    skipWs_ws_lead _ _ (pad_all_ws ind), hv, List.cons_append,
    skipWs_not_ws _ _ hw]

theorem skipWs_members_head (k : String) (v : JValue) (ms : JObj) (ind : Nat)
    (r2 : List Char) :
    ∃ t0, skipWs (stringifyMembers (.cons k v ms) ind ++ r2) = '"' :: t0 := by
  cases ms with
  | nil =>
    refine ⟨escapeStr k.data ++ '"' :: ':' :: ' ' :: (stringifyV v ind ++ r2), ?_⟩
    rw [show stringifyMembers (.cons k v .nil) ind ++ r2
        = pad ind ++ ('"' :: (escapeStr k.data ++ '"' :: ':' :: ' '
            :: (stringifyV v ind ++ r2)))
        by simp [stringifyMembers],
      skipWs_ws_lead _ _ (pad_all_ws ind), skipWs_not_ws _ _ (by decide)]
  | cons k2 v2 ms2 =>
    refine ⟨escapeStr k.data ++ '"' :: ':' :: ' '
        :: (stringifyV v ind
          ++ (',' :: '\n' :: stringifyMembers (.cons k2 v2 ms2) ind ++ r2)), ?_⟩
    rw [show stringifyMembers (.cons k v (.cons k2 v2 ms2)) ind ++ r2
        = pad ind ++ ('"' :: (escapeStr k.data ++ '"' :: ':' :: ' '
            :: (stringifyV v ind
              ++ (',' :: '\n' :: stringifyMembers (.cons k2 v2 ms2) ind ++ r2))))
        by simp [stringifyMembers],
      skipWs_ws_lead _ _ (pad_all_ws ind), skipWs_not_ws _ _ (by decide)]

theorem tryClose_of_head (close : Char) (cs : List Char) (c0 : Char) (t0 : List Char)
    (h : skipWs cs = c0 :: t0) (hne : c0 ≠ close) : tryClose close cs = none := by
  rw [tryClose, h]
  simp [hne]

set_option maxHeartbeats 1600000 in
mutual
theorem parseValue_stringifyV (v : JValue) :
    ∀ f ind rest, jSizeV v ≤ f → startsDigit rest = false →
      parseValue f (stringifyV v ind ++ rest) = some (v, rest) := by
  intro f ind rest hf hr
  cases v with
  | null =>
    cases f with
    | zero => simp [jSizeV] at hf
    | succ f =>
      rw [show stringifyV .null ind ++ rest = 'n' :: 'u' :: 'l' :: 'l' :: rest from rfl,
        parseValue_succ, skipWs_not_ws _ _ (by decide)]
      cases f <;> rfl
  | bool b =>
    cases f with
    | zero => simp [jSizeV] at hf
    | succ f =>
      cases b with
      | true =>
        rw [show stringifyV (.bool true) ind ++ rest = 't' :: 'r' :: 'u' :: 'e' :: rest
            from rfl,
          parseValue_succ, skipWs_not_ws _ _ (by decide)]
        cases f <;> rfl
      | false =>
        rw [show stringifyV (.bool false) ind ++ rest
            = 'f' :: 'a' :: 'l' :: 's' :: 'e' :: rest from rfl,
          parseValue_succ, skipWs_not_ws _ _ (by decide)]
        cases f <;> rfl
  | num n =>
    cases f with
    | zero => simp [jSizeV] at hf
    | succ f =>
      by_cases hn : n < 0
      · rw [show stringifyV (.num n) ind ++ rest
            = '-' :: (natToDigits n.natAbs ++ rest) by simp [stringifyV, intToDigits, hn],
          parseValue_succ, skipWs_not_ws _ _ (by decide), parseValueCore_minus,
          parseNatTok_natToDigits n.natAbs rest hr]
        show some (JValue.num (-((n.natAbs : Nat) : Int)), rest) = some (.num n, rest)
        rw [show -((n.natAbs : Nat) : Int) = n by omega]
      · rcases hne : natToDigits n.toNat with _ | ⟨c, cs⟩
        · exact absurd hne (natToDigits_ne_nil _)
        · have hd : c.isDigit = true := natToDigits_all_digit c (by rw [hne]; simp)
          obtain ⟨hw, _, _⟩ := digit_head_props c hd
          rw [show stringifyV (.num n) ind ++ rest = c :: (cs ++ rest) by
              simp [stringifyV, intToDigits, hn, hne],
            parseValue_succ, skipWs_not_ws _ _ hw, parseValueCore_digit f c _ hd,
            show c :: (cs ++ rest) = natToDigits n.toNat ++ rest by rw [hne]; rfl,
            parseNatTok_natToDigits n.toNat rest hr]
          show some (JValue.num ((n.toNat : Nat) : Int), rest) = some (.num n, rest)
          rw [show ((n.toNat : Nat) : Int) = n by omega]
  | str s =>
    cases f with
    | zero => simp [jSizeV] at hf
    | succ f =>
      rw [show stringifyV (.str s) ind ++ rest
          = '"' :: (escapeStr s.data ++ '"' :: rest) by simp [stringifyV],
        parseValue_succ, skipWs_not_ws _ _ (by decide), parseValueCore_quote,
        parseStringChars_escapeStr s.data rest]
  | arr items =>
    cases items with
    | nil =>
      cases f with
      | zero => simp [jSizeV] at hf
      | succ f =>
        rw [show stringifyV (.arr .nil) ind ++ rest = '[' :: ']' :: rest from rfl,
          parseValue_succ, skipWs_not_ws _ _ (by decide)]
        cases f <;> rfl
    | cons x xs =>
      cases f with
      | zero => simp [jSizeV] at hf
      | succ f =>
        cases f with
        | zero => simp [jSizeV, jSizeA] at hf; omega
        | succ g =>
          rw [show stringifyV (.arr (.cons x xs)) ind ++ rest
              = '[' :: ('\n' :: (stringifyItems (.cons x xs) (ind + 2)
                  ++ '\n' :: (pad ind ++ ']' :: rest))) by simp [stringifyV],
            parseValue_succ, skipWs_not_ws _ _ (by decide), parseValueCore_lbracket_succ]
          obtain ⟨c0, t0, hsk, hw0, hne0, _⟩ :=
            skipWs_items_head x xs (ind + 2) ('\n' :: (pad ind ++ ']' :: rest))
          have hsk2 : skipWs ('\n' :: (stringifyItems (.cons x xs) (ind + 2)
              ++ '\n' :: (pad ind ++ ']' :: rest))) = c0 :: t0 := by
            rw [skipWs_cons_ws _ _ (by decide), hsk]
          have htc : tryClose ']' ('\n' :: (stringifyItems (.cons x xs) (ind + 2)
              ++ '\n' :: (pad ind ++ ']' :: rest))) = none :=
            tryClose_of_head ']' _ c0 t0 hsk2 hne0
          have hpi : parseItems g ('\n' :: (stringifyItems (.cons x xs) (ind + 2)
              ++ '\n' :: (pad ind ++ ']' :: rest))) = some (.cons x xs, rest) := by
            rw [show '\n' :: (stringifyItems (.cons x xs) (ind + 2)
                  ++ '\n' :: (pad ind ++ ']' :: rest))
                = ['\n'] ++ stringifyItems (.cons x xs) (ind + 2)
                  ++ '\n' :: (pad ind ++ ']' :: rest) by simp]
            exact parseItems_stringifyItems x xs g (ind + 2) ['\n'] (pad ind) rest
              (by simp [jSizeV, jSizeA] at hf ⊢; omega)
              (by intro c hc; simp at hc; subst hc; rfl)
              (pad_all_ws ind)
          simp [htc, hpi]
  | obj members =>
    cases members with
    | nil =>
      cases f with
      | zero => simp [jSizeV] at hf
      | succ f =>
        rw [show stringifyV (.obj .nil) ind ++ rest = '\x7b' :: '\x7d' :: rest from rfl,
          parseValue_succ, skipWs_not_ws _ _ (by decide)]
        cases f <;> rfl
    | cons k v2 ms =>
      cases f with
      | zero => simp [jSizeV] at hf
      | succ f =>
        cases f with
        | zero => simp [jSizeV, jSizeO] at hf; omega
        | succ g =>
          rw [show stringifyV (.obj (.cons k v2 ms)) ind ++ rest
              = '\x7b' :: ('\n' :: (stringifyMembers (.cons k v2 ms) (ind + 2)
                  ++ '\n' :: (pad ind ++ '\x7d' :: rest))) by simp [stringifyV],
            parseValue_succ, skipWs_not_ws _ _ (by decide), parseValueCore_lbrace_succ]
          obtain ⟨t0, hsk⟩ :=
            skipWs_members_head k v2 ms (ind + 2) ('\n' :: (pad ind ++ '\x7d' :: rest))
          have hsk2 : skipWs ('\n' :: (stringifyMembers (.cons k v2 ms) (ind + 2)
              ++ '\n' :: (pad ind ++ '\x7d' :: rest))) = '"' :: t0 := by
            rw [skipWs_cons_ws _ _ (by decide), hsk]
          have htc : tryClose '\x7d' ('\n' :: (stringifyMembers (.cons k v2 ms) (ind + 2)
              ++ '\n' :: (pad ind ++ '\x7d' :: rest))) = none :=
            tryClose_of_head '\x7d' _ '"' t0 hsk2 (by decide)
          have hpm : parseMembers g ('\n' :: (stringifyMembers (.cons k v2 ms) (ind + 2)
              ++ '\n' :: (pad ind ++ '\x7d' :: rest))) = some (.cons k v2 ms, rest) := by
            rw [show '\n' :: (stringifyMembers (.cons k v2 ms) (ind + 2)
                  ++ '\n' :: (pad ind ++ '\x7d' :: rest))
                = ['\n'] ++ stringifyMembers (.cons k v2 ms) (ind + 2)
                  ++ '\n' :: (pad ind ++ '\x7d' :: rest) by simp]
            exact parseMembers_stringifyMembers k v2 ms g (ind + 2) ['\n'] (pad ind) rest
              (by simp [jSizeV, jSizeO] at hf ⊢; omega)
              (by intro c hc; simp at hc; subst hc; rfl)
              (pad_all_ws ind)
          simp [htc, hpm]
termination_by sizeOf v

theorem parseItems_stringifyItems (x : JValue) (xs : JArr) :
    ∀ f ind lead wsl rest, jSizeA (.cons x xs) ≤ f →
      (∀ c ∈ lead, isWsChar c = true) → (∀ c ∈ wsl, isWsChar c = true) →
      parseItems f
          (lead ++ stringifyItems (.cons x xs) ind ++ '\n' :: (wsl ++ ']' :: rest))
        = some (.cons x xs, rest) := by
  intro f ind lead wsl rest hf hlead hwsl
  cases f with
  | zero => simp [jSizeA] at hf
  | succ f =>
    rw [parseItems_succ]
    cases xs with
    | nil =>
      have hpv : parseValue f
          (lead ++ stringifyItems (.cons x .nil) ind ++ '\n' :: (wsl ++ ']' :: rest))
          = some (x, '\n' :: (wsl ++ ']' :: rest)) := by
        rw [show lead ++ stringifyItems (.cons x .nil) ind ++ '\n' :: (wsl ++ ']' :: rest)
            = (lead ++ pad ind) ++ (stringifyV x ind ++ '\n' :: (wsl ++ ']' :: rest)) by
          simp [stringifyItems],
          parseValue_ws_leads f _ _ (append_all_ws hlead (pad_all_ws ind))]
        exact parseValue_stringifyV x f ind _ (by simp [jSizeA] at hf; omega)
          (by simp [startsDigit])
      rw [List.append_assoc] at hpv
      have hsk : skipWs ('\n' :: (wsl ++ ']' :: rest)) = ']' :: rest := by
        rw [skipWs_cons_ws _ _ (by decide), skipWs_ws_lead wsl _ hwsl,
          skipWs_not_ws _ _ (by decide)]
      simp [hpv, hsk]
    | cons y ys =>
      have hpv : parseValue f
          (lead ++ stringifyItems (.cons x (.cons y ys)) ind
            ++ '\n' :: (wsl ++ ']' :: rest))
          = some (x, ',' :: '\n'
              :: (stringifyItems (.cons y ys) ind ++ '\n' :: (wsl ++ ']' :: rest))) := by
        rw [show lead ++ stringifyItems (.cons x (.cons y ys)) ind
              ++ '\n' :: (wsl ++ ']' :: rest)
            = (lead ++ pad ind) ++ (stringifyV x ind ++ ',' :: '\n'
                :: (stringifyItems (.cons y ys) ind ++ '\n' :: (wsl ++ ']' :: rest))) by
          simp [stringifyItems],
          parseValue_ws_leads f _ _ (append_all_ws hlead (pad_all_ws ind))]
        exact parseValue_stringifyV x f ind _ (by simp [jSizeA] at hf; omega)
          (by simp [startsDigit])
      rw [List.append_assoc] at hpv
      have hpi : parseItems f ('\n'
          :: (stringifyItems (.cons y ys) ind ++ '\n' :: (wsl ++ ']' :: rest)))
          = some (.cons y ys, rest) := by
        rw [show '\n' :: (stringifyItems (.cons y ys) ind ++ '\n' :: (wsl ++ ']' :: rest))
            = ['\n'] ++ stringifyItems (.cons y ys) ind ++ '\n' :: (wsl ++ ']' :: rest)
            by simp]
        exact parseItems_stringifyItems y ys f ind ['\n'] wsl rest
          (by simp [jSizeA] at hf ⊢; omega)
          (by intro c hc; simp at hc; subst hc; rfl) hwsl
      have hsk : skipWs (',' :: '\n'
          :: (stringifyItems (.cons y ys) ind ++ '\n' :: (wsl ++ ']' :: rest)))
          = ',' :: '\n'
            :: (stringifyItems (.cons y ys) ind ++ '\n' :: (wsl ++ ']' :: rest)) :=
        skipWs_not_ws _ _ (by decide)
      simp [hpv, hsk, hpi]
termination_by 1 + sizeOf x + sizeOf xs

theorem parseMembers_stringifyMembers (k : String) (v : JValue) (ms : JObj) :
    ∀ f ind lead wsl rest, jSizeO (.cons k v ms) ≤ f →
      (∀ c ∈ lead, isWsChar c = true) → (∀ c ∈ wsl, isWsChar c = true) →
      parseMembers f
          (lead ++ stringifyMembers (.cons k v ms) ind ++ '\n' :: (wsl ++ '\x7d' :: rest))
        = some (.cons k v ms, rest) := by
  intro f ind lead wsl rest hf hlead hwsl
  cases f with
  | zero => simp [jSizeO] at hf
  | succ f =>
    rw [parseMembers_succ]
    cases ms with
    | nil =>
      have hsk0 : skipWs (lead ++ stringifyMembers (.cons k v .nil) ind
            ++ '\n' :: (wsl ++ '\x7d' :: rest))
          = '"' :: (escapeStr k.data ++ '"' :: ':' :: ' '
              :: (stringifyV v ind ++ '\n' :: (wsl ++ '\x7d' :: rest))) := by
        rw [show lead ++ stringifyMembers (.cons k v .nil) ind
              ++ '\n' :: (wsl ++ '\x7d' :: rest)
            = (lead ++ pad ind) ++ ('"' :: (escapeStr k.data ++ '"' :: ':' :: ' '
                :: (stringifyV v ind ++ '\n' :: (wsl ++ '\x7d' :: rest)))) by
          simp [stringifyMembers],
          skipWs_ws_lead _ _ (append_all_ws hlead (pad_all_ws ind)),
          skipWs_not_ws _ _ (by decide)]
      rw [List.append_assoc] at hsk0
      have hps : parseStringChars (escapeStr k.data ++ '"' :: ':' :: ' '
            :: (stringifyV v ind ++ '\n' :: (wsl ++ '\x7d' :: rest)))
          = some (k.data,
              ':' :: ' ' :: (stringifyV v ind ++ '\n' :: (wsl ++ '\x7d' :: rest))) :=
        parseStringChars_escapeStr k.data _
      have hpv : parseValue f (' ' :: (stringifyV v ind ++ '\n' :: (wsl ++ '\x7d' :: rest)))
          = some (v, '\n' :: (wsl ++ '\x7d' :: rest)) := by
        rw [parseValue_ws_lead f ' ' _ (by decide)]
        exact parseValue_stringifyV v f ind _ (by simp [jSizeO] at hf; omega)
          (by simp [startsDigit])
      have hsk2 : skipWs ('\n' :: (wsl ++ '\x7d' :: rest)) = '\x7d' :: rest := by
        rw [skipWs_cons_ws _ _ (by decide), skipWs_ws_lead wsl _ hwsl,
          skipWs_not_ws _ _ (by decide)]
      have hsk1 : skipWs (':' :: ' ' :: (stringifyV v ind ++ '\n' :: (wsl ++ '\x7d' :: rest)))
          = ':' :: ' ' :: (stringifyV v ind ++ '\n' :: (wsl ++ '\x7d' :: rest)) :=
        skipWs_not_ws _ _ (by decide)
      simp [hsk0, hps, hsk1, hpv, hsk2]
    | cons k2 v2 ms2 =>
      have hsk0 : skipWs (lead ++ stringifyMembers (.cons k v (.cons k2 v2 ms2)) ind
            ++ '\n' :: (wsl ++ '\x7d' :: rest))
          = '"' :: (escapeStr k.data ++ '"' :: ':' :: ' '
              :: (stringifyV v ind ++ ',' :: '\n'
                :: (stringifyMembers (.cons k2 v2 ms2) ind
                  ++ '\n' :: (wsl ++ '\x7d' :: rest)))) := by
        rw [show lead ++ stringifyMembers (.cons k v (.cons k2 v2 ms2)) ind
              ++ '\n' :: (wsl ++ '\x7d' :: rest)
            = (lead ++ pad ind) ++ ('"' :: (escapeStr k.data ++ '"' :: ':' :: ' '
                :: (stringifyV v ind ++ ',' :: '\n'
                  :: (stringifyMembers (.cons k2 v2 ms2) ind
                    ++ '\n' :: (wsl ++ '\x7d' :: rest))))) by
          simp [stringifyMembers],
          skipWs_ws_lead _ _ (append_all_ws hlead (pad_all_ws ind)),
          skipWs_not_ws _ _ (by decide)]
      rw [List.append_assoc] at hsk0
      have hps : parseStringChars (escapeStr k.data ++ '"' :: ':' :: ' '
            :: (stringifyV v ind ++ ',' :: '\n'
              :: (stringifyMembers (.cons k2 v2 ms2) ind
                ++ '\n' :: (wsl ++ '\x7d' :: rest))))
          = some (k.data, ':' :: ' ' :: (stringifyV v ind ++ ',' :: '\n'
              :: (stringifyMembers (.cons k2 v2 ms2) ind
                ++ '\n' :: (wsl ++ '\x7d' :: rest)))) :=
        parseStringChars_escapeStr k.data _
      have hpv : parseValue f (' ' :: (stringifyV v ind ++ ',' :: '\n'
            :: (stringifyMembers (.cons k2 v2 ms2) ind
              ++ '\n' :: (wsl ++ '\x7d' :: rest))))
          = some (v, ',' :: '\n' :: (stringifyMembers (.cons k2 v2 ms2) ind
              ++ '\n' :: (wsl ++ '\x7d' :: rest))) := by
        rw [parseValue_ws_lead f ' ' _ (by decide)]
        exact parseValue_stringifyV v f ind _ (by simp [jSizeO] at hf; omega)
          (by simp [startsDigit])
      have hpm : parseMembers f ('\n' :: (stringifyMembers (.cons k2 v2 ms2) ind
          ++ '\n' :: (wsl ++ '\x7d' :: rest))) = some (.cons k2 v2 ms2, rest) := by
        rw [show '\n' :: (stringifyMembers (.cons k2 v2 ms2) ind
              ++ '\n' :: (wsl ++ '\x7d' :: rest))
            = ['\n'] ++ stringifyMembers (.cons k2 v2 ms2) ind
              ++ '\n' :: (wsl ++ '\x7d' :: rest) by simp]
        exact parseMembers_stringifyMembers k2 v2 ms2 f ind ['\n'] wsl rest
          (by simp [jSizeO] at hf ⊢; omega)
          (by intro c hc; simp at hc; subst hc; rfl) hwsl
      have hsk1 : skipWs (':' :: ' ' :: (stringifyV v ind ++ ',' :: '\n'
            :: (stringifyMembers (.cons k2 v2 ms2) ind
              ++ '\n' :: (wsl ++ '\x7d' :: rest))))
          = ':' :: ' ' :: (stringifyV v ind ++ ',' :: '\n'
              :: (stringifyMembers (.cons k2 v2 ms2) ind
                ++ '\n' :: (wsl ++ '\x7d' :: rest))) :=
        skipWs_not_ws _ _ (by decide)
      have hsk2 : skipWs (',' :: '\n' :: (stringifyMembers (.cons k2 v2 ms2) ind
            ++ '\n' :: (wsl ++ '\x7d' :: rest)))
          = ',' :: '\n' :: (stringifyMembers (.cons k2 v2 ms2) ind
              ++ '\n' :: (wsl ++ '\x7d' :: rest)) :=
        skipWs_not_ws _ _ (by decide)
      simp [hsk0, hps, hsk1, hpv, hsk2, hpm]
termination_by 1 + sizeOf v + sizeOf ms
end

mutual
theorem jSizeV_le_len (v : JValue) : ∀ ind, jSizeV v ≤ (stringifyV v ind).length := by
  intro ind
  cases v with
  | null => simp [jSizeV, stringifyV]
  | bool b => cases b <;> simp [jSizeV, stringifyV]
  | num n =>
    have hne : intToDigits n ≠ [] := by
      unfold intToDigits
      by_cases hn : n < 0
      · simp [hn]
      · simp [hn, natToDigits_ne_nil]
    have : 0 < (intToDigits n).length := List.length_pos.mpr hne
    simp [jSizeV, stringifyV]
    omega
  | str s => simp [jSizeV, stringifyV]
  | arr items =>
    cases items with
    | nil => simp [jSizeV, stringifyV]
    | cons x xs =>
      have hi := jSizeA_le_len x xs (ind + 2) (by omega)
      simp [jSizeV, jSizeA, stringifyV, pad] at hi ⊢
      omega
  | obj members =>
    cases members with
    | nil => simp [jSizeV, stringifyV]
    | cons k v2 ms =>
      have hm := jSizeO_le_len k v2 ms (ind + 2) (by omega)
      simp [jSizeV, jSizeO, stringifyV, pad] at hm ⊢
      omega
termination_by sizeOf v

theorem jSizeA_le_len (x : JValue) (xs : JArr) : ∀ ind, 1 ≤ ind →
    jSizeA (.cons x xs) ≤ (stringifyItems (.cons x xs) ind).length := by
  intro ind hind
  cases xs with
  | nil =>
    have hv := jSizeV_le_len x ind
    simp [jSizeA, stringifyItems, pad]
    omega
  | cons y ys =>
    have hv := jSizeV_le_len x ind
    have hi := jSizeA_le_len y ys ind hind
    simp [jSizeA, stringifyItems, pad] at hi ⊢
    omega
termination_by 1 + sizeOf x + sizeOf xs

theorem jSizeO_le_len (k : String) (v : JValue) (ms : JObj) : ∀ ind, 1 ≤ ind →
    jSizeO (.cons k v ms) ≤ (stringifyMembers (.cons k v ms) ind).length := by
  intro ind hind
  cases ms with
  | nil =>
    have hv := jSizeV_le_len v ind
    simp [jSizeO, stringifyMembers, pad]
    omega
  | cons k2 v2 ms2 =>
    have hv := jSizeV_le_len v ind
    have hm := jSizeO_le_len k2 v2 ms2 ind hind
    simp [jSizeO, stringifyMembers, pad] at hm ⊢
    omega
termination_by 1 + sizeOf v + sizeOf ms
end

theorem jsonParse_jsonStringify (v : JValue) : jsonParse (jsonStringify v) = .ok v := by
  have hp : parseValue ((stringifyV v 0).length + 1) (stringifyV v 0) = some (v, []) := by
    have h := parseValue_stringifyV v ((stringifyV v 0).length + 1) 0 []
      (le_trans (jSizeV_le_len v 0) (by omega)) rfl
    simpa using h
  have hd : (jsonStringify v).data = stringifyV v 0 := rfl
  simp [jsonParse, hd, hp, skipWs]

/-! ## Claim theorems -/

/-- C1: for every alias, if connection-detail resolution fails for any
reason (launch failure, unparsable output, or non-zero status),
`getConnection` does not propagate the error to its caller: it logs the
classified error at the configured trace level and resolves to the `none`
no-connection sentinel, never throwing or rejecting. -/
theorem getConnection_resolution_failure_swallowed
    (traceLevel : Int) («alias» : String)
    (jsonParseTool : String → Except StdError OrgDetail) (outcome : SpawnOutcome)
    (e : DeveloperError)
    (h : (getConnectionDetail traceLevel «alias» jsonParseTool outcome).1 = .error e) :
    getConnection traceLevel «alias» jsonParseTool outcome =
      (none, (getConnectionDetail traceLevel «alias» jsonParseTool outcome).2
        ++ DeveloperError.log e traceLevel) := by
  unfold getConnection
  rcases hd : getConnectionDetail traceLevel «alias» jsonParseTool outcome with ⟨r, logs⟩
  rw [hd] at h
  simp at h
  cases r with
  | ok v => simp at h
  | error err =>
    simp [DeveloperError.importError]
    simp at h
    exact h ▸ rfl

/-- Witness for C1 at a concrete launch failure: the classified
`ToolUnavailable` error is logged at basic level and the sentinel is
returned. -/
theorem getConnection_resolution_failure_swallowed_witness :
    getConnection 0 "MyOrg" (fun _ => .error ⟨"parse", "st"⟩)
        (.launchError ⟨"spawn sfdx ENOENT", "stack"⟩)
      = (none, [.error ("Error occurred:"
          ++ (toolUnavailableError "MyOrg" ⟨"spawn sfdx ENOENT", "stack"⟩).message)]) := by
  have h := getConnection_resolution_failure_swallowed 0 "MyOrg"
    (fun _ => .error ⟨"parse", "st"⟩) (.launchError ⟨"spawn sfdx ENOENT", "stack"⟩)
    (toolUnavailableError "MyOrg" ⟨"spawn sfdx ENOENT", "stack"⟩) rfl
  rw [h]
  rfl

/-- C2: for every successfully parsed tool response, `getConnectionDetail`
resolves with the embedded result record unchanged exactly when the status
field is zero, and otherwise rejects with the `ResolutionFailed` error
carrying the tool-reported message and stack and the alias (`default` when
blank); the subprocess exit code (quantified here as `exitCode`) plays no
role. -/
theorem getConnectionDetail_status_decides
    (traceLevel : Int) («alias» : String)
    (jsonParseTool : String → Except StdError OrgDetail)
    (results : String) (exitCode : Int) (detail : OrgDetail)
    (h : jsonParseTool results = .ok detail) :
    (getConnectionDetail traceLevel «alias» jsonParseTool
        (.output results exitCode)).1 =
      (if detail.status = 0 then .ok detail.result
        else .error (resolutionFailedError «alias» detail)) ∧
    aliasOrDefault "" = "default" := by
  refine ⟨?_, rfl⟩
  by_cases hs : detail.status = 0 <;> simp [getConnectionDetail, getOrgDetail, h, hs]

/-- Witness for C2 at a concrete zero-status response and a concrete
non-zero-status response, under different exit codes. -/
theorem getConnectionDetail_status_decides_witness :
    (getConnectionDetail 0 "a"
        (fun _ => .ok ⟨0, "", "", ⟨"u", "i", "Connected", "tok", "https://x", "c", "a"⟩⟩)
        (.output "out" 7)).1
      = .ok ⟨"u", "i", "Connected", "tok", "https://x", "c", "a"⟩ ∧
    (getConnectionDetail 0 ""
        (fun _ => .ok ⟨1, "no such org", "stk", ⟨"", "", "", "", "", "", ""⟩⟩)
        (.output "out" 0)).1
      = .error ⟨"Unable to find connection:default", "no such org", "stk"⟩ := by
  constructor
  · have h := (getConnectionDetail_status_decides 0 "a"
      (fun _ => .ok ⟨0, "", "", ⟨"u", "i", "Connected", "tok", "https://x", "c", "a"⟩⟩)
      "out" 7 ⟨0, "", "", ⟨"u", "i", "Connected", "tok", "https://x", "c", "a"⟩⟩ rfl).1
    rw [h]
    rfl
  · have h := (getConnectionDetail_status_decides 0 ""
      (fun _ => .ok ⟨1, "no such org", "stk", ⟨"", "", "", "", "", "", ""⟩⟩)
      "out" 0 ⟨1, "no such org", "stk", ⟨"", "", "", "", "", "", ""⟩⟩ rfl).1
    rw [h]
    rfl

/-- C3: for every successfully resolved result record, the connection is
built from exactly two of its fields — the instance URL becomes the server
URL and the access token the session identifier — so no other field
(username, id, connectedStatus, clientId, alias) can influence it. -/
theorem getConnection_uses_exactly_two_fields
    (traceLevel : Int) («alias» : String)
    (jsonParseTool : String → Except StdError OrgDetail) (outcome : SpawnOutcome)
    (r : OrgDetailResult)
    (h : (getConnectionDetail traceLevel «alias» jsonParseTool outcome).1 = .ok r) :
    (getConnection traceLevel «alias» jsonParseTool outcome).1 =
      some ⟨r.instanceUrl, r.accessToken⟩ := by
  unfold getConnection
  rcases hd : getConnectionDetail traceLevel «alias» jsonParseTool outcome with ⟨res, logs⟩
  rw [hd] at h
  simp at h
  cases res with
  | ok v => simp at h; subst h; rfl
  | error err => simp at h

/-- Witness for C3: the spec's example record yields a connection with
server URL `https://x` and session identifier `tok`. -/
theorem getConnection_uses_exactly_two_fields_witness :
    (getConnection 0 "a"
        (fun _ => .ok ⟨0, "", "", ⟨"u", "i", "Connected", "tok", "https://x", "c", "a"⟩⟩)
        (.output "out" 0)).1
      = some ⟨"https://x", "tok"⟩ := by
  have h := getConnection_uses_exactly_two_fields 0 "a"
    (fun _ => .ok ⟨0, "", "", ⟨"u", "i", "Connected", "tok", "https://x", "c", "a"⟩⟩)
    (.output "out" 0) ⟨"u", "i", "Connected", "tok", "https://x", "c", "a"⟩ rfl
  rw [h]

/-- C4: for every tool output on which `JSON.parse` throws,
`getConnectionDetail` rejects with the `MalformedResponse` error carrying
the parse error's message and stack and identifying the requested alias
(`default` when blank). -/
theorem getConnectionDetail_malformed_response
    (traceLevel : Int) («alias» : String)
    (jsonParseTool : String → Except StdError OrgDetail)
    (results : String) (exitCode : Int) (err : StdError)
    (h : jsonParseTool results = .error err) :
    (getConnectionDetail traceLevel «alias» jsonParseTool
        (.output results exitCode)).1 =
      .error (malformedResponseError «alias» err) ∧
    (malformedResponseError «alias» err).detailMessage = err.message ∧
    (malformedResponseError «alias» err).stack = err.stack ∧
    aliasOrDefault "" = "default" := by
  refine ⟨?_, rfl, rfl, rfl⟩
  simp [getConnectionDetail, getOrgDetail, h]

/-- Witness for C4 at a concrete non-JSON tool output. -/
theorem getConnectionDetail_malformed_response_witness :
    (getConnectionDetail 0 ""
        (fun _ => .error ⟨"Unexpected token in JSON", "SyntaxError"⟩)
        (.output "not json" 0)).1
      = .error ⟨"Unable to get connection:default",
          "Unexpected token in JSON", "SyntaxError"⟩ := by
  have h := (getConnectionDetail_malformed_response 0 ""
    (fun _ => .error ⟨"Unexpected token in JSON", "SyntaxError"⟩)
    "not json" 0 ⟨"Unexpected token in JSON", "SyntaxError"⟩ rfl).1
  rw [h]
  rfl

/-- C5: for every alias, a subprocess launch failure makes resolution
reject with the `ToolUnavailable` error, which carries the underlying
OS-level error message and references the requested alias (`default` when
the alias is empty); the rejection propagates through
`getConnectionDetail`. -/
theorem getOrgDetail_tool_unavailable («alias» : String) (err : StdError)
    (traceLevel : Int) (jsonParseTool : String → Except StdError OrgDetail) :
    getOrgDetail «alias» (.launchError err)
        = .error (toolUnavailableError «alias» err) ∧
    (getConnectionDetail traceLevel «alias» jsonParseTool (.launchError err)).1 =
      .error (toolUnavailableError «alias» err) ∧
    (toolUnavailableError «alias» err).message =
      "Error occurred while asking the salesforce cli for alias:"
        ++ aliasOrDefault «alias» ++ ", is the salesforce cli installed?" ∧
    (toolUnavailableError «alias» err).detailMessage = err.message ∧
    aliasOrDefault "" = "default" :=
  ⟨rfl, rfl, rfl, rfl, rfl⟩

/-- C9: the trace level affects only logging verbosity: under any two
trace-level settings and the same inputs (alias, tool behavior, filesystem
state), every public operation returns the same result. -/
theorem trace_level_only_affects_logging
    (t1 t2 : Int) («alias» : String)
    (jsonParseTool : String → Except StdError OrgDetail) (outcome : SpawnOutcome)
    (resolve : String → String) (w : FsWorld) (p : String) (v : JValue) :
    (getConnection t1 «alias» jsonParseTool outcome).1 =
      (getConnection t2 «alias» jsonParseTool outcome).1 ∧
    (getConnectionDetail t1 «alias» jsonParseTool outcome).1 =
      (getConnectionDetail t2 «alias» jsonParseTool outcome).1 ∧
    (readJSON resolve w t1 p).1 = (readJSON resolve w t2 p).1 ∧
    (readFile resolve w t1 p).1 = (readFile resolve w t2 p).1 ∧
    (writeFile resolve w t1 p v).1 = (writeFile resolve w t2 p v).1 ∧
    (listFiles resolve w t1 p).1 = (listFiles resolve w t2 p).1 := by
  refine ⟨?_, ?_, ?_, ?_, ?_, ?_⟩
  · unfold getConnection getConnectionDetail
    cases outcome with
    | launchError e => simp [getOrgDetail]
    | output res code =>
      simp only [getOrgDetail]
      cases jsonParseTool res with
      | error e => simp
      | ok d => by_cases h : d.status = 0 <;> simp [h]
  · unfold getConnectionDetail
    cases outcome with
    | launchError e => simp [getOrgDetail]
    | output res code =>
      simp only [getOrgDetail]
      cases jsonParseTool res with
      | error e => simp
      | ok d => by_cases h : d.status = 0 <;> simp [h]
  · unfold readJSON
    by_cases h : existsSync w (resolve p) <;> simp [h]
    cases readJsonSync w (resolve p) <;> simp
  · unfold readFile
    by_cases h : existsSync w (resolve p) <;> simp [h]
    cases readFileSync w (resolve p) <;> simp
  · unfold writeFile
    rcases hw : writeFileSync w (resolve p) (jsonStringify v) with e | w2 <;> simp [hw]
  · unfold listFiles
    by_cases h : existsSync w (resolve p) <;> simp [h]
    cases ensureDirSync w (resolve p) with
    | error e => simp
    | ok pr =>
      rcases pr with ⟨created, w2⟩
      by_cases hc : created.isSome <;> simp [hc]
      cases readdirSync w (resolve p) <;> simp

/-- C10: `DeveloperError.importError` is idempotent — a `DeveloperError`
passes through unchanged, any other error is wrapped with the fixed detail
message `unhandled exception` — so a classified error keeps its
client-facing message. -/
theorem importError_idempotent :
    (∀ e : DeveloperError, DeveloperError.importError (.dev e) = e) ∧
    (∀ s : StdError,
      DeveloperError.importError (.std s)
        = ⟨s.message, "unhandled exception", s.stack⟩) ∧
    (∀ x : JsErrorValue,
      DeveloperError.importError (.dev (DeveloperError.importError x))
        = DeveloperError.importError x) ∧
    (∀ e : DeveloperError, (DeveloperError.importError (.dev e)).message = e.message) :=
  ⟨fun _ => rfl, fun _ => rfl, fun _ => rfl, fun _ => rfl⟩

/-- C6 counterexample: `writeFile` performs no existence check.  At a path
whose target does not exist it logs nothing — the claim requires an error
log and an undefined result — and instead silently creates the file with
the serialized content. -/
theorem writeFile_no_existence_check_cex :
    existsSync [] (id "f.json") = false ∧
    (writeFile id [] 0 "f.json" (JValue.num 1)).2 = [] ∧
    (writeFile id [] 0 "f.json" (JValue.num 1)).1.find "f.json"
      = some (.file (.ok "1")) :=
  ⟨rfl, rfl, rfl⟩

/-- C6 (amended): `readJSON`, `readFile` and `listFiles` resolve the path,
log exactly one error and return undefined when the target does not exist,
and catch, classify, log (at the configured trace level) and swallow I/O
errors arising after the existence check.  `writeFile` also never raises
and swallows write errors the same way, but performs no existence check —
an absent target is created silently, with no log.  `listFiles` alone can
propagate an exception: when the resolved path exists but is a file, the
ensure-directory call throws before its try/catch. -/
theorem fs_helpers_error_policy (resolve : String → String) (w : FsWorld)
    (traceLevel : Int) (p : String) (v : JValue) (e : StdError)
    (fc : Except StdError String) :
    (existsSync w (resolve p) = false →
      readJSON resolve w traceLevel p
        = (none, [.error ("File does not exist: " ++ resolve p)])) ∧
    (existsSync w (resolve p) = false →
      readFile resolve w traceLevel p
        = (none, [.error ("File does not exist: " ++ resolve p)])) ∧
    (existsSync w (resolve p) = false →
      listFiles resolve w traceLevel p
        = (.ok none, [.error ("Path does not exist: " ++ resolve p)])) ∧
    (readJsonSync w (resolve p) = .error e → existsSync w (resolve p) = true →
      readJSON resolve w traceLevel p = (none,
        DeveloperError.log
          ⟨"unable to read file: " ++ resolve p, e.message, e.stack⟩ traceLevel)) ∧
    (readFileSync w (resolve p) = .error e → existsSync w (resolve p) = true →
      readFile resolve w traceLevel p = (none,
        DeveloperError.log
          ⟨"unable to read file: " ++ resolve p, e.message, e.stack⟩ traceLevel)) ∧
    (w.find (resolve p) = some (.dir (.error e)) →
      listFiles resolve w traceLevel p = (.ok none,
        DeveloperError.log
          ⟨"unable to read directory: " ++ resolve p, e.message, e.stack⟩ traceLevel)) ∧
    (existsSync w (resolve p) = false →
      writeFile resolve w traceLevel p v
        = ((resolve p, .file (.ok (jsonStringify v))) :: w, [])) ∧
    (writeFileSync w (resolve p) (jsonStringify v) = .error e →
      writeFile resolve w traceLevel p v = (w,
        DeveloperError.log
          ⟨"unable to write to file: " ++ p, e.message, e.stack⟩ traceLevel)) ∧
    (w.find (resolve p) = some (.file fc) →
      (listFiles resolve w traceLevel p).1
        = .error ⟨"EEXIST: file already exists, mkdir", "Error: EEXIST"⟩) := by
  refine ⟨?_, ?_, ?_, ?_, ?_, ?_, ?_, ?_, ?_⟩
  · intro h
    simp [readJSON, h]
  · intro h
    simp [readFile, h]
  · intro h
    simp [listFiles, h]
  · intro hj hex
    simp [readJSON, hex, hj]
  · intro hr hex
    simp [readFile, hex, hr]
  · intro hfind
    have hex : existsSync w (resolve p) = true := by simp [existsSync, hfind]
    simp [listFiles, hex, ensureDirSync, hfind, readdirSync]
  · intro h
    have hfind : w.find (resolve p) = none := by
      simp [existsSync] at h
      exact h
    simp [writeFile, writeFileSync, hfind]
  · intro hw
    simp [writeFile, hw]
  · intro hfind
    have hex : existsSync w (resolve p) = true := by simp [existsSync, hfind]
    simp [listFiles, hex, ensureDirSync, hfind]

/-- Witness for C6 (amended), discharging each hypothesis at a concrete
filesystem: a missing file logs once; an unparsable file is swallowed into
a classified log; a silent write creates the file; a file target makes
`listFiles` propagate the ensure-directory exception. -/
theorem fs_helpers_error_policy_witness :
    readJSON id [] 0 "nope" = (none, [.error "File does not exist: nope"]) ∧
    readJSON id [("bad", .file (.ok "x"))] 0 "bad"
      = (none, [.error "Error occurred:unable to read file: bad"]) ∧
    writeFile id [] 0 "new" (JValue.num 2) = ([("new", .file (.ok "2"))], []) ∧
    (listFiles id [("f", .file (.ok "z"))] 0 "f").1
      = .error ⟨"EEXIST: file already exists, mkdir", "Error: EEXIST"⟩ := by
  refine ⟨?_, ?_, ?_, ?_⟩
  · exact (fs_helpers_error_policy id [] 0 "nope" (JValue.num 1) ⟨"", ""⟩
      (.ok "")).1 rfl
  · have h := (fs_helpers_error_policy id [("bad", .file (.ok "x"))] 0 "bad"
      (JValue.num 1) ⟨"Unexpected token in JSON", "SyntaxError"⟩ (.ok "")).2.2.2.1
      rfl rfl
    rw [h]
    rfl
  · exact (fs_helpers_error_policy id [] 0 "new" (JValue.num 2) ⟨"", ""⟩
      (.ok "")).2.2.2.2.2.2.1 rfl
  · exact (fs_helpers_error_policy id [("f", .file (.ok "z"))] 0 "f"
      (JValue.num 1) ⟨"", ""⟩ (.ok "z")).2.2.2.2.2.2.2.2 rfl

/-- C7 counterexample: at a path whose resolved target is an existing
directory, the write fails (it is logged and swallowed), so reading the
path back yields the undefined result rather than the written value. -/
theorem write_read_roundtrip_cex :
    isDirAt [("d", FsNode.dir (.ok []))] (id "d") = true ∧
    (readJSON id
        ((writeFile id [("d", FsNode.dir (.ok []))] 0 "d" (JValue.num 1)).1) 0 "d").1
      = none ∧
    (none : Option JValue) ≠ some (JValue.num 1) :=
  ⟨rfl, rfl, by simp⟩

/-- C7 (amended): for every JSON-representable value `v` and every path
whose resolved target is not an existing directory (so the write succeeds),
writing `v` with `writeFile` and reading the path back with `readJSON`
yields `v` itself, under any trace levels. -/
theorem write_read_roundtrip (resolve : String → String) (w : FsWorld)
    (t1 t2 : Int) (p : String) (v : JValue)
    (h : isDirAt w (resolve p) = false) :
    (readJSON resolve ((writeFile resolve w t1 p v).1) t2 p).1 = some v := by
  have hws : writeFileSync w (resolve p) (jsonStringify v)
      = .ok ((resolve p, .file (.ok (jsonStringify v))) :: w) := by
    unfold writeFileSync
    unfold isDirAt at h
    rcases hf : w.find (resolve p) with _ | n
    · simp
    · cases n with
      | file c => simp
      | dir es => rw [hf] at h; simp at h
  simp [writeFile, hws, readJSON, existsSync, readJsonSync, readFileSync,
    FsWorld.find, jsonParse_jsonStringify v]

/-- Witness for C7 at the spec's example value: writing `{"a": 1}` to a
fresh path and reading it back yields an equal structure. -/
theorem write_read_roundtrip_witness :
    (readJSON id
        ((writeFile id [] 0 "out.json"
          (JValue.obj (.cons "a" (JValue.num 1) .nil))).1) 0 "out.json").1
      = some (JValue.obj (.cons "a" (JValue.num 1) .nil)) :=
  write_read_roundtrip id [] 0 0 "out.json" (JValue.obj (.cons "a" (JValue.num 1) .nil)) rfl

/-- C8: `writeFile` always serializes its input as indented JSON text
before writing, regardless of the value's shape: whenever the write
succeeds the stored bytes are `jsonStringify` of the value; a plain string
is stored JSON-quoted, not verbatim, and an object is stored with
two-space indentation. -/
theorem writeFile_serializes_json (resolve : String → String) (w : FsWorld)
    (traceLevel : Int) (p : String) (v : JValue)
    (h : isDirAt w (resolve p) = false) :
    (writeFile resolve w traceLevel p v).1.find (resolve p)
      = some (.file (.ok (jsonStringify v))) ∧
    jsonStringify (JValue.str "hi") = "\"hi\"" ∧
    jsonStringify (JValue.str "hi") ≠ "hi" ∧
    jsonStringify (JValue.obj (.cons "a" (JValue.num 1) .nil))
      = "\x7b\n  \"a\": 1\n\x7d" := by
  have hws : writeFileSync w (resolve p) (jsonStringify v)
      = .ok ((resolve p, .file (.ok (jsonStringify v))) :: w) := by
    unfold writeFileSync
    unfold isDirAt at h
    rcases hf : w.find (resolve p) with _ | n
    · simp
    · cases n with
      | file c => simp
      | dir es => rw [hf] at h; simp at h
  refine ⟨?_, rfl, by decide, rfl⟩
  simp [writeFile, hws, FsWorld.find]

/-- Witness for C8: a plain string value is stored JSON-quoted. -/
theorem writeFile_serializes_json_witness :
    (writeFile id [] 0 "x" (JValue.str "hi")).1.find "x"
      = some (.file (.ok "\"hi\"")) := by
  have h := (writeFile_serializes_json id [] 0 "x" (JValue.str "hi") rfl).1
  exact h
